import Mathlib

/-!
Verification development for the `spawithdata` repository.

The repository has two source modules:
  * `trade-simulator.js` — `TradeSimulator` (isValid, simulateOne, simulate)
  * `chart-renderer.js`  — `ChartRenderer` (aggregateToFrequency,
    calculateBarDirections, calculateBodyRatios) together with the
    `DataProcessor` module (getTradingDayData, getFilteredCharts).

The definitions below are a shallow embedding of those functions.
JavaScript numbers are modelled as rationals (`ℚ`); the integer-valued
fields (`triggerBar`, `bar`, `maxBars`, array indices) that the UI layer
produces via `parseInt` are modelled with `ℤ`/`ℕ`.  JavaScript array
indexing (which yields `undefined` out of range) is modelled by `jsGet?`
returning `Option`; a function that would throw an uncaught `TypeError`
(property access on `undefined`) returns `none` at that point and the
`none` is propagated by its callers.
-/

/-- One OHLC bar `[timestamp, open, high, low, close]` (array layout in the
source; `bar[0] = ts`, `bar[1] = o`, `bar[2] = h`, `bar[3] = l`,
`bar[4] = c`). -/
structure Bar where
  ts : ℚ
  o : ℚ
  h : ℚ
  l : ℚ
  c : ℚ
  deriving DecidableEq

/-- JavaScript array read `l[i]`: `undefined` (here `none`) when the index
is negative or past the end. -/
def jsGet? {α : Type} (l : List α) (i : ℤ) : Option α :=
  if 0 ≤ i then l[i.toNat]? else none

/-- Simulation parameters `{ triggerBar, direction, targetPct, stopPct }`
(trade-simulator.js).  `direction` is the raw string from the UI. -/
structure TradeParams where
  triggerBar : ℤ
  direction : String
  targetPct : ℚ
  stopPct : ℚ
  deriving DecidableEq

/-- `isValid(params)` from trade-simulator.js lines 13-19. -/
def isValid (p : TradeParams) : Bool :=
  decide (0 < p.triggerBar) &&
    (p.direction == "Long" || p.direction == "Short") &&
    decide (0 < p.targetPct) &&
    decide (0 < p.stopPct)

/-- Trade outcome strings `'WIN' | 'LOSS' | 'SKIP'`. -/
inductive Outcome where
  | WIN
  | LOSS
  | SKIP
  deriving DecidableEq

/-- A result object returned by `simulateOne`.  The source returns plain
objects whose optional properties (`reason`, `entry`, `target`, `stop`)
are present only on some paths; absent properties are `none`. -/
structure TradeResult where
  outcome : Outcome
  pnl : ℚ
  reason : Option String
  entry : Option ℚ
  target : Option ℚ
  stop : Option ℚ
  deriving DecidableEq

/-- A chart day as consumed by the simulator: the `key` tag and the `bars`
array (`chartData.bars`). -/
structure ChartData where
  key : String
  bars : List Bar
  deriving DecidableEq

/-- `(params.targetPct / 100) * range` (line 47). -/
def targetOffsetOf (p : TradeParams) (range : ℚ) : ℚ :=
  p.targetPct / 100 * range

/-- `(params.stopPct / 100) * range` (line 48). -/
def stopOffsetOf (p : TradeParams) (range : ℚ) : ℚ :=
  p.stopPct / 100 * range

/-- `targetPrice` (lines 52-58): entry plus the offset for Long, minus for
anything else (the source's `else` branch covers every non-`'Long'`
string). -/
def targetPriceOf (p : TradeParams) (entry tOff : ℚ) : ℚ :=
  if p.direction = "Long" then entry + tOff else entry - tOff

/-- `stopPrice` (lines 52-58). -/
def stopPriceOf (p : TradeParams) (entry sOff : ℚ) : ℚ :=
  if p.direction = "Long" then entry - sOff else entry + sOff

/-- `hitTarget` for one scanned bar (lines 67-73): Long compares the bar's
high against the target, otherwise the bar's low. -/
def hitTargetB (p : TradeParams) (target : ℚ) (b : Bar) : Bool :=
  if p.direction = "Long" then decide (target ≤ b.h) else decide (b.l ≤ target)

/-- `hitStop` for one scanned bar (lines 67-73). -/
def hitStopB (p : TradeParams) (stop : ℚ) (b : Bar) : Bool :=
  if p.direction = "Long" then decide (b.l ≤ stop) else decide (stop ≤ b.h)

/-- The scan loop of `simulateOne` (lines 61-91) over the bars strictly
after the trigger bar, with the entry/target/stop levels already fixed. -/
def scanBars (p : TradeParams) (entry target stop tOff sOff : ℚ) :
    List Bar → TradeResult
  | [] =>
      { outcome := Outcome.SKIP, pnl := 0, reason := some "end of day",
        entry := some entry, target := some target, stop := some stop }
  | b :: rest =>
      if hitTargetB p target b && hitStopB p stop b then
        { outcome := Outcome.SKIP, pnl := 0, reason := some "both hit",
          entry := some entry, target := some target, stop := some stop }
      else if hitTargetB p target b then
        { outcome := Outcome.WIN, pnl := tOff, reason := none,
          entry := some entry, target := some target, stop := some stop }
      else if hitStopB p stop b then
        { outcome := Outcome.LOSS, pnl := -sOff, reason := none,
          entry := some entry, target := some target, stop := some stop }
      else
        scanBars p entry target stop tOff sOff rest

/-- `simulateOne(chartData, params)` (trade-simulator.js lines 27-91).
Returns `none` when the JavaScript function would throw: with
`triggerIndex` negative (and smaller than the bar count) the source reads
`bars[triggerIndex]`, obtains `undefined`, and the following property
access `triggerBar[4]` raises a `TypeError`. -/
def simulateOne (chartData : ChartData) (p : TradeParams) : Option TradeResult :=
  let bars := chartData.bars
  let triggerIndex : ℤ := p.triggerBar - 1
  if (bars.length : ℤ) ≤ triggerIndex then
    some { outcome := Outcome.SKIP, pnl := 0, reason := some "not enough bars",
           entry := none, target := none, stop := none }
  else
    match jsGet? bars triggerIndex with
    | none => none
    | some tb =>
        let entry := tb.c
        let range := tb.h - tb.l
        if range ≤ 0 then
          some { outcome := Outcome.SKIP, pnl := 0, reason := some "zero range",
                 entry := some entry, target := none, stop := none }
        else
          let tOff := targetOffsetOf p range
          let sOff := stopOffsetOf p range
          let target := targetPriceOf p entry tOff
          let stop := stopPriceOf p entry sOff
          some (scanBars p entry target stop tOff sOff
            (bars.drop (triggerIndex + 1).toNat))

/-- One element of the `trades` list built by `simulate`:
`{ key: chart.key, ...result }` (line 112). -/
structure Trade where
  key : String
  result : TradeResult
  deriving DecidableEq

/-- The loop of `simulate` (lines 110-123) restricted to building the
`trades` list; a thrown exception inside `simulateOne` propagates
(`none`). -/
def simulateAll (charts : List ChartData) (p : TradeParams) :
    Option (List Trade) :=
  match charts with
  | [] => some []
  | c :: rest =>
      match simulateOne c p, simulateAll rest p with
      | some r, some ts => some ({ key := c.key, result := r } :: ts)
      | _, _ => none

/-- Counter state of the `simulate` loop (`wins`, `losses`, `skipped`,
`totalPnL`, lines 105-108). -/
structure Tally where
  wins : ℕ
  losses : ℕ
  skipped : ℕ
  totalPnL : ℚ
  deriving DecidableEq

/-- One iteration of the counter updates (lines 114-122). -/
def tallyStep (a : Tally) (t : Trade) : Tally :=
  if t.result.outcome = Outcome.WIN then
    { a with wins := a.wins + 1, totalPnL := a.totalPnL + t.result.pnl }
  else if t.result.outcome = Outcome.LOSS then
    { a with losses := a.losses + 1, totalPnL := a.totalPnL + t.result.pnl }
  else
    { a with skipped := a.skipped + 1 }

/-- The statistics object returned by a successful `simulate` call
(lines 129-137). -/
structure SimStats where
  wins : ℕ
  losses : ℕ
  skipped : ℕ
  decisive : ℕ
  winRate : ℚ
  avgPnL : ℚ
  trades : List Trade
  deriving DecidableEq

/-- Result of `simulate`: `invalid` models the `null` return for invalid
params (line 101); `crashed` models an uncaught exception escaping the
loop; `ok` carries the statistics object. -/
inductive SimResult where
  | invalid
  | crashed
  | ok (s : SimStats)
  deriving DecidableEq

/-- `simulate(charts, params)` (trade-simulator.js lines 99-138). -/
def simulate (charts : List ChartData) (p : TradeParams) : SimResult :=
  if isValid p = false then SimResult.invalid
  else
    match simulateAll charts p with
    | none => SimResult.crashed
    | some trades =>
        let a := trades.foldl tallyStep ⟨0, 0, 0, 0⟩
        let decisive := a.wins + a.losses
        let winRate : ℚ := if 0 < decisive then (a.wins : ℚ) / (decisive : ℚ) * 100 else 0
        let avgPnL : ℚ := if 0 < decisive then a.totalPnL / (decisive : ℚ) else 0
        SimResult.ok { wins := a.wins, losses := a.losses, skipped := a.skipped,
                       decisive := decisive, winRate := winRate, avgPnL := avgPnL,
                       trades := trades }

/-- Fallback result used only to state theorems with `Option.getD`; never
produced by a run that the theorems' hypotheses allow. -/
def defaultResult : TradeResult :=
  { outcome := Outcome.SKIP, pnl := 0, reason := none,
    entry := none, target := none, stop := none }


/-! ### Chart renderer and data processor (chart-renderer.js) -/

/-- The per-bar classifier mapped by `calculateBarDirections`
(chart-renderer.js lines 181-189). -/
def barDirection (b : Bar) : String :=
  if b.c > b.o then "UP" else if b.c < b.o then "DOWN" else "FLAT"

/-- `calculateBarDirections(bars)` (lines 181-189). -/
def calculateBarDirections (bars : List Bar) : List String :=
  bars.map barDirection

/-- The per-bar classifier mapped by `calculateBodyRatios` (lines
196-214): `<25%` for a non-positive range, otherwise the bucket of
`|close - open| / range * 100`. -/
def bodyRatioClass (b : Bar) : String :=
  let range := b.h - b.l
  if range ≤ 0 then "<25%"
  else
    let body := |b.c - b.o|
    let ratio := body / range * 100
    if ratio < 25 then "<25%"
    else if ratio < 50 then "25-50%"
    else if ratio < 75 then "50-75%"
    else ">75%"

/-- `calculateBodyRatios(bars)` (lines 196-214). -/
def calculateBodyRatios (bars : List Bar) : List String :=
  bars.map bodyRatioClass

/-- The consecutive slices `bars5min.slice(i, i + barsPerPeriod)` visited
by the aggregation loop (lines 159-171). -/
def chunksOf {α : Type} (k : ℕ) : List α → List (List α)
  | [] => []
  | x :: xs => (x :: xs.take (k - 1)) :: chunksOf k (xs.drop (k - 1))
termination_by l => l.length
decreasing_by
  simp only [List.length_cons, List.length_drop]
  omega

/-- The body of the aggregation loop (lines 161-170): `none` for an
empty chunk (the source's `continue`; no chunk produced by the loop is
empty), otherwise the aggregated bar — first bar's timestamp and open,
`Math.max` of the highs, `Math.min` of the lows, last bar's close. -/
def aggChunk : List Bar → Option Bar
  | [] => none
  | b :: rest =>
      some { ts := b.ts, o := b.o,
             h := rest.foldl (fun m x => max m x.h) b.h,
             l := rest.foldl (fun m x => min m x.l) b.l,
             c := (rest.getLastD b).c }

/-- `aggregateToFrequency(bars5min, targetFreq)` (lines 150-174): the
input itself for '5min', otherwise one bar per chunk. -/
def aggregateToFrequency (bars5min : List Bar) (targetFreq : String) : List Bar :=
  if targetFreq = "5min" then bars5min
  else
    let periodMinutes : ℕ := if targetFreq = "10min" then 10 else 15
    let barsPerPeriod : ℕ := periodMinutes / 5
    (chunksOf barsPerPeriod bars5min).filterMap aggChunk

/-- A processed per-day entry (`processCharts`, DataProcessor lines
602-628).  Only the fields read by the filter pipeline are modelled; the
rest (timezone, trading hours, prior-day prices) are passed through
unchanged and never branched on. -/
structure TradingDayEntry where
  source : String
  date : String
  gapDirection : String
  gapSizeClass : String
  openAbovePrevHigh : Bool
  closeBelowPrevLow : Bool
  bars : List Bar
  deriving DecidableEq

/-- The object returned by `getTradingDayData` and pushed (with a key) by
`getFilteredCharts`; `key` is `""` until the spread
`{...chartData, key}` sets it. -/
structure ChartView where
  source : String
  date : String
  frequency : String
  maxBars : ℕ
  gapDirection : String
  gapSizeClass : String
  openAbovePrevHigh : Bool
  closeBelowPrevLow : Bool
  bars : List Bar
  barDirections : List String
  bodyRatios : List String
  key : String
  deriving DecidableEq

/-- One per-bar constraint `{bar, direction, bodyRatio?}` (`barFilters`
entries; `bodyRatio` is absent (`none`) in the UI's `addBarFilter`). -/
structure BarFilter where
  bar : ℤ
  direction : String
  bodyRatio : Option String
  deriving DecidableEq

/-- The `filters` object assembled by `applyFilters` (app lines
499-507). -/
structure FilterSpec where
  sources : List String
  frequencies : List String
  barsOptions : List ℕ
  gapDirections : List String
  gapSizeClasses : List String
  prevDayFilters : List String
  barFilters : List BarFilter
  deriving DecidableEq

/-- `processedCharts.find(c => c.source === sourceName && c.date ===
date)` (lines 678-680). -/
def findEntry (catalog : List TradingDayEntry) (sourceName date : String) :
    Option TradingDayEntry :=
  catalog.find? (fun c => c.source == sourceName && c.date == date)

/-- `getTradingDayData(sourceName, date, frequency, maxBars)` (lines
676-717): locate the entry (`none` models the `null` miss), aggregate,
truncate when `maxBars < 999` and the aggregate is longer, then recompute
directions and body ratios on the resulting bars. -/
def getTradingDayData (catalog : List TradingDayEntry)
    (sourceName date frequency : String) (maxBars : ℕ) : Option ChartView :=
  match findEntry catalog sourceName date with
  | none => none
  | some entry =>
      let bars0 := aggregateToFrequency entry.bars frequency
      let bars := if maxBars < 999 ∧ maxBars < bars0.length
        then bars0.take maxBars else bars0
      some { source := entry.source, date := entry.date,
             frequency := frequency, maxBars := maxBars,
             gapDirection := entry.gapDirection,
             gapSizeClass := entry.gapSizeClass,
             openAbovePrevHigh := entry.openAbovePrevHigh,
             closeBelowPrevLow := entry.closeBelowPrevLow,
             bars := bars,
             barDirections := calculateBarDirections bars,
             bodyRatios := calculateBodyRatios bars,
             key := "" }

/-- The prev-day-flag loop of `getFilteredCharts` (lines 754-767): each
requested flag string fails the entry when the matching boolean is not
`true`; unknown strings impose nothing. -/
def matchesPrevDay (filters : List String) (e : TradingDayEntry) : Bool :=
  filters.all (fun f =>
    !(f == "open_above_prev_high" && !e.openAbovePrevHigh) &&
    !(f == "close_below_prev_low" && !e.closeBelowPrevLow))

/-- The entry-level `continue` chain of `getFilteredCharts` (lines
737-767), as the predicate "this entry survives". -/
def entryLevelPass (spec : FilterSpec) (e : TradingDayEntry) : Bool :=
  !(decide (0 < spec.sources.length) && !spec.sources.contains e.source) &&
  !(decide (0 < spec.gapDirections.length) &&
      !spec.gapDirections.contains e.gapDirection) &&
  !(decide (0 < spec.gapSizeClasses.length) &&
      !spec.gapSizeClasses.contains e.gapSizeClass) &&
  !(decide (0 < spec.prevDayFilters.length) &&
      !matchesPrevDay spec.prevDayFilters e)

/-- One `(barNumber, direction, bodyRatio?)` check of the per-bar loop
(lines 787-809): out-of-range index fails, direction mismatch fails
(`barDirections[barIndex]` is `undefined` for a negative index, which
never equals the requested string), and a requested non-wildcard body
ratio must match. -/
def barFilterOk (cd : ChartView) (bf : BarFilter) : Bool :=
  let barIndex : ℤ := bf.bar - 1
  if (cd.barDirections.length : ℤ) ≤ barIndex then false
  else if jsGet? cd.barDirections barIndex ≠ some bf.direction then false
  else
    match bf.bodyRatio with
    | none => true
    | some br =>
        if br = "any" then true
        else if (cd.bodyRatios.length : ℤ) ≤ barIndex then false
        else decide (jsGet? cd.bodyRatios barIndex = some br)

/-- The whole per-bar loop (every constraint must pass). -/
def matchesBarFilters (bfs : List BarFilter) (cd : ChartView) : Bool :=
  bfs.all (fun bf => barFilterOk cd bf)

/-- The composite key `source-date-frequency-barsOption` (line 815). -/
def viewKey (source date freq : String) (barsOpt : ℕ) : String :=
  source ++ "-" ++ date ++ "-" ++ freq ++ "-" ++ toString barsOpt

/-- The body of the inner loop of `getFilteredCharts` (lines 770-817) for
one `(entry, frequency, barsOption)` combination: `none` when a
`continue` drops the combination, otherwise the view that is pushed. -/
def keepView (catalog : List TradingDayEntry) (spec : FilterSpec)
    (e : TradingDayEntry) (freq : String) (barsOpt : ℕ) : Option ChartView :=
  match getTradingDayData catalog e.source e.date freq barsOpt with
  | none => none
  | some cd =>
      if cd.bars.length < 5 then none
      else if 0 < spec.barFilters.length ∧
          matchesBarFilters spec.barFilters cd = false then none
      else some { cd with key := viewKey e.source e.date freq barsOpt }

/-- `getFilteredCharts(filters)` (lines 724-822): entry-level pass, then
the (frequency x barsOption) cross product per surviving entry, in
iteration order. -/
def getFilteredCharts (catalog : List TradingDayEntry) (spec : FilterSpec) :
    List ChartView :=
  (catalog.filter (fun e => entryLevelPass spec e)).flatMap (fun e =>
    spec.frequencies.flatMap (fun freq =>
      spec.barsOptions.filterMap (fun barsOpt =>
        keepView catalog spec e freq barsOpt)))


/-- Concrete five-bar trading day used to exercise the per-bar filter
path: every bar has open 100, high 101, low 99, close 101 (direction UP,
body ratio 50%). -/
def c4Entry : TradingDayEntry :=
  { source := "ES", date := "20240102", gapDirection := "GAP UP",
    gapSizeClass := "small", openAbovePrevHigh := false,
    closeBelowPrevLow := false,
    bars := [⟨0, 100, 101, 99, 101⟩, ⟨1, 100, 101, 99, 101⟩,
             ⟨2, 100, 101, 99, 101⟩, ⟨3, 100, 101, 99, 101⟩,
             ⟨4, 100, 101, 99, 101⟩] }

/-- A filter spec requesting bar 1 to be UP (no body-ratio constraint). -/
def c4Spec : FilterSpec :=
  { sources := [], frequencies := ["5min"], barsOptions := [999],
    gapDirections := [], gapSizeClasses := [], prevDayFilters := [],
    barFilters := [{ bar := 1, direction := "UP", bodyRatio := none }] }

/-- The view `getTradingDayData` produces for `c4Entry` at ('5min', 999). -/
def c4View : ChartView :=
  { source := "ES", date := "20240102", frequency := "5min", maxBars := 999,
    gapDirection := "GAP UP", gapSizeClass := "small",
    openAbovePrevHigh := false, closeBelowPrevLow := false,
    bars := [⟨0, 100, 101, 99, 101⟩, ⟨1, 100, 101, 99, 101⟩,
             ⟨2, 100, 101, 99, 101⟩, ⟨3, 100, 101, 99, 101⟩,
             ⟨4, 100, 101, 99, 101⟩],
    barDirections := ["UP", "UP", "UP", "UP", "UP"],
    bodyRatios := ["50-75%", "50-75%", "50-75%", "50-75%", "50-75%"],
    key := "" }

/-! ### Helper lemmas about the trade simulator -/

theorem jsGet?_natCast {α : Type} (l : List α) (k : ℕ) :
    jsGet? l (k : ℤ) = l[k]? := by
  simp [jsGet?]

theorem jsGet?_eq_some_bounds {α : Type} {l : List α} {i : ℤ} {a : α}
    (h : jsGet? l i = some a) : 0 ≤ i ∧ i.toNat < l.length := by
  unfold jsGet? at h
  split at h
  · refine ⟨by assumption, ?_⟩
    exact (List.getElem?_eq_some.mp h).1
  · exact absurd h (by simp)

theorem isValid_eq_true_iff (p : TradeParams) :
    isValid p = true ↔
      (0 < p.triggerBar ∧ (p.direction = "Long" ∨ p.direction = "Short") ∧
        0 < p.targetPct ∧ 0 < p.stopPct) := by
  simp [isValid, and_assoc]

theorem simulateOne_isSome_of_pos (c : ChartData) (p : TradeParams)
    (h : 1 ≤ p.triggerBar) : (simulateOne c p).isSome = true := by
  unfold simulateOne
  by_cases hlen : (c.bars.length : ℤ) ≤ p.triggerBar - 1
  · simp [hlen]
  · have h0 : 0 ≤ p.triggerBar - 1 := by omega
    have hlt : (p.triggerBar - 1).toNat < c.bars.length := by omega
    have hg : jsGet? c.bars (p.triggerBar - 1) =
        some (c.bars.get ⟨(p.triggerBar - 1).toNat, hlt⟩) := by
      simp [jsGet?, h0, List.getElem?_eq_getElem hlt]
    simp only [hlen, if_false, hg]
    split <;> simp

theorem scanBars_skip_pnl_zero (p : TradeParams)
    (entry target stop tOff sOff : ℚ) (l : List Bar)
    (h : (scanBars p entry target stop tOff sOff l).outcome = Outcome.SKIP) :
    (scanBars p entry target stop tOff sOff l).pnl = 0 := by
  induction l with
  | nil => rfl
  | cons b rest ih =>
      unfold scanBars at h ⊢
      by_cases h2 : hitTargetB p target b = true
      · by_cases h3 : hitStopB p stop b = true
        · simp [h2, h3]
        · simp [h2, h3] at h
      · by_cases h3 : hitStopB p stop b = true
        · simp [h2, h3] at h
        · simp [h2, h3] at h ⊢
          exact ih h

theorem simulateOne_skip_pnl_zero (c : ChartData) (p : TradeParams)
    (r : TradeResult) (h : simulateOne c p = some r)
    (hs : r.outcome = Outcome.SKIP) : r.pnl = 0 := by
  by_cases hlen : (c.bars.length : ℤ) ≤ p.triggerBar - 1
  · simp [simulateOne, hlen] at h
    rw [← h]
  · rcases hg : jsGet? c.bars (p.triggerBar - 1) with _ | tb
    · simp [simulateOne, hlen, hg] at h
    · by_cases hr : tb.h - tb.l ≤ 0
      · simp [simulateOne, hlen, hg, hr] at h
        rw [← h]
      · simp [simulateOne, hlen, hg, hr] at h
        rw [← h] at hs ⊢
        exact scanBars_skip_pnl_zero _ _ _ _ _ _ _ hs

theorem simulateAll_eq_map (charts : List ChartData) (p : TradeParams)
    (h : ∀ c ∈ charts, (simulateOne c p).isSome = true) :
    simulateAll charts p =
      some (charts.map (fun c =>
        { key := c.key, result := (simulateOne c p).getD defaultResult })) := by
  induction charts with
  | nil => rfl
  | cons c rest ih =>
      have hc := h c (by simp)
      rcases hr : simulateOne c p with _ | r
      · rw [hr] at hc; cases hc
      · have hrest := ih (fun x hx => h x (by simp [hx]))
        simp [simulateAll, hr, hrest]

theorem foldl_tallyStep_spec (ts : List Trade) (a : Tally) :
    ts.foldl tallyStep a =
      { wins := a.wins +
          (ts.filter (fun t => t.result.outcome == Outcome.WIN)).length,
        losses := a.losses +
          (ts.filter (fun t => t.result.outcome == Outcome.LOSS)).length,
        skipped := a.skipped +
          (ts.filter (fun t => t.result.outcome == Outcome.SKIP)).length,
        totalPnL := a.totalPnL +
          ((ts.filter (fun t => t.result.outcome == Outcome.WIN ||
              t.result.outcome == Outcome.LOSS)).map
            (fun t => t.result.pnl)).sum } := by
  induction ts generalizing a with
  | nil => simp
  | cons t rest ih =>
      rcases ho : t.result.outcome with _ | _ | _ <;>
        simp [tallyStep, ho, ih, List.filter_cons, add_assoc, add_comm,
          add_left_comm]

/-! ### Claim theorems: trade simulator -/

/-- C2 (counterexample): in the scenario of the claim — Long trade,
trigger bar with close 105 and range 10, `targetPct = 50`, `stopPct = 20`,
single following bar with high 111 and low 103 — `simulateOne` does NOT
return a WIN: the stop price is `105 - 20/100*10 = 103`, the bar's low 103
reaches it, and both levels fire. -/
theorem c2_scenario_not_win :
    (simulateOne
        { key := "c2", bars := [⟨0, 100, 110, 100, 105⟩, ⟨1, 105, 111, 103, 110⟩] }
        { triggerBar := 1, direction := "Long", targetPct := 50, stopPct := 20 }).map
      TradeResult.outcome ≠ some Outcome.WIN := by
  norm_num [simulateOne, jsGet?, targetOffsetOf, stopOffsetOf, targetPriceOf,
    stopPriceOf, hitTargetB, hitStopB, scanBars]
  decide

/-- C2 (amended): for a Long trade on a view whose trigger bar has close
105 and range 10, with `targetPct = 50` (target price 110) and
`stopPct = 20` (stop price 103, not 101), where the single bar after the
trigger has high 111 and low 103, `simulateOne` returns SKIP with reason
"both hit" and pnl 0, because the bar reaches both the target and the
stop. -/
theorem c2_scenario_both_hit :
    simulateOne
        { key := "c2", bars := [⟨0, 100, 110, 100, 105⟩, ⟨1, 105, 111, 103, 110⟩] }
        { triggerBar := 1, direction := "Long", targetPct := 50, stopPct := 20 } =
      some { outcome := Outcome.SKIP, pnl := 0, reason := some "both hit",
             entry := some 105, target := some 110, stop := some 103 } := by
  norm_num [simulateOne, jsGet?, targetOffsetOf, stopOffsetOf, targetPriceOf,
    stopPriceOf, hitTargetB, hitStopB, scanBars]

/-- C3: `simulate(views, params)` returns the distinguishable invalid
marker (the source's `null`, here `SimResult.invalid`) exactly when the
params fail the validation `triggerBar ≥ 1 ∧ direction ∈ {Long, Short} ∧
targetPct > 0 ∧ stopPct > 0`; with valid params it instead produces a
statistics object, so trades run only on valid params. -/
theorem simulate_invalid_marker (charts : List ChartData) (p : TradeParams) :
    (simulate charts p = SimResult.invalid ↔
      ¬(1 ≤ p.triggerBar ∧ (p.direction = "Long" ∨ p.direction = "Short") ∧
        0 < p.targetPct ∧ 0 < p.stopPct)) ∧
    ((1 ≤ p.triggerBar ∧ (p.direction = "Long" ∨ p.direction = "Short") ∧
        0 < p.targetPct ∧ 0 < p.stopPct) →
      ∃ s, simulate charts p = SimResult.ok s) := by
  have hvi : isValid p = true ↔
      (1 ≤ p.triggerBar ∧ (p.direction = "Long" ∨ p.direction = "Short") ∧
        0 < p.targetPct ∧ 0 < p.stopPct) := by
    rw [isValid_eq_true_iff]
    constructor
    · rintro ⟨h1, h2⟩; exact ⟨by omega, h2⟩
    · rintro ⟨h1, h2⟩; exact ⟨by omega, h2⟩
  by_cases hv : isValid p = true
  · have hall : simulateAll charts p =
        some (charts.map (fun c =>
          { key := c.key, result := (simulateOne c p).getD defaultResult })) :=
      simulateAll_eq_map charts p
        (fun c _ => simulateOne_isSome_of_pos c p (hvi.mp hv).1)
    have hok : ∃ s, simulate charts p = SimResult.ok s := by
      simp [simulate, hv, hall]
    obtain ⟨s, hs⟩ := hok
    refine ⟨?_, fun _ => ⟨s, hs⟩⟩
    rw [hs]
    constructor
    · intro h; exact absurd h (by simp)
    · intro h; exact absurd (hvi.mp hv) h
  · have hvf : isValid p = false := by
      cases h : isValid p
      · rfl
      · exact absurd h hv
    have hinv : simulate charts p = SimResult.invalid := by
      simp [simulate, hvf]
    refine ⟨?_, fun hc => absurd (hvi.mpr hc) hv⟩
    rw [hinv]
    exact iff_of_true rfl (fun hc => hv (hvi.mpr hc))

/-- C3 (witness): a params object with direction "Sideways" is rejected
with the invalid marker. -/
theorem simulate_invalid_marker_witness :
    simulate [{ key := "w3", bars := [⟨0, 100, 110, 100, 105⟩] }]
        { triggerBar := 1, direction := "Sideways", targetPct := 50, stopPct := 50 } =
      SimResult.invalid := by
  refine (simulate_invalid_marker _ _).1.mpr ?_
  intro h
  rcases h.2.1 with h' | h' <;> exact absurd h' (by decide)

/-- C7 (counterexample): `simulateOne` does raise for some params — with
`triggerBar = 0` on a one-bar view, `triggerIndex = -1` passes the
`triggerIndex >= bars.length` check, `bars[-1]` is `undefined`, and the
following property access throws a `TypeError` (modelled by `none`), so
the outcome is not a SKIP result. -/
theorem simulateOne_raises_on_zero_trigger :
    simulateOne { key := "c7", bars := [⟨0, 100, 110, 100, 105⟩] }
        { triggerBar := 0, direction := "Long", targetPct := 50, stopPct := 50 } =
      none := by
  norm_num [simulateOne, jsGet?]

/-- C7 (amended): for every view and every params with `triggerBar ≥ 1`,
`simulateOne` never raises (its result is a value, not an exception), and
it resolves the degenerate inputs as SKIP outcomes with pnl 0: reason
"not enough bars" when `triggerBar - 1 ≥ len(bars)`, and otherwise reason
"zero range" when the trigger bar's `high - low ≤ 0`. -/
theorem simulateOne_degenerate_skip (view : ChartData) (p : TradeParams)
    (h1 : 1 ≤ p.triggerBar) :
    (simulateOne view p).isSome = true ∧
    ((view.bars.length : ℤ) ≤ p.triggerBar - 1 →
      simulateOne view p =
        some { outcome := Outcome.SKIP, pnl := 0, reason := some "not enough bars",
               entry := none, target := none, stop := none }) ∧
    (∀ tb, jsGet? view.bars (p.triggerBar - 1) = some tb → tb.h - tb.l ≤ 0 →
      simulateOne view p =
        some { outcome := Outcome.SKIP, pnl := 0, reason := some "zero range",
               entry := some tb.c, target := none, stop := none }) := by
  refine ⟨simulateOne_isSome_of_pos view p h1, ?_, ?_⟩
  · intro hlen
    simp [simulateOne, hlen]
  · intro tb htb hr
    have hb := jsGet?_eq_some_bounds htb
    have hlen : ¬((view.bars.length : ℤ) ≤ p.triggerBar - 1) := by omega
    simp [simulateOne, hlen, htb, hr]

/-- C7 (witness): an empty view with `triggerBar = 1` skips with "not
enough bars", and a one-bar zero-range view skips with "zero range". -/
theorem simulateOne_degenerate_skip_witness :
    simulateOne { key := "w7a", bars := [] }
        { triggerBar := 1, direction := "Long", targetPct := 50, stopPct := 50 } =
      some { outcome := Outcome.SKIP, pnl := 0, reason := some "not enough bars",
             entry := none, target := none, stop := none } ∧
    simulateOne { key := "w7b", bars := [⟨0, 100, 100, 100, 100⟩] }
        { triggerBar := 1, direction := "Long", targetPct := 50, stopPct := 50 } =
      some { outcome := Outcome.SKIP, pnl := 0, reason := some "zero range",
             entry := some 100, target := none, stop := none } := by
  constructor
  · exact (simulateOne_degenerate_skip { key := "w7a", bars := [] }
      { triggerBar := 1, direction := "Long", targetPct := 50, stopPct := 50 }
      (by norm_num)).2.1 (by norm_num)
  · exact (simulateOne_degenerate_skip
      { key := "w7b", bars := [⟨0, 100, 100, 100, 100⟩] }
      { triggerBar := 1, direction := "Long", targetPct := 50, stopPct := 50 }
      (by norm_num)).2.2 ⟨0, 100, 100, 100, 100⟩ (by decide) (by norm_num)

/-! ### The scan loop of simulateOne (C1) -/

theorem scanBars_no_fire (p : TradeParams) (entry target stop tOff sOff : ℚ)
    (l : List Bar)
    (h : ∀ b ∈ l, hitTargetB p target b = false ∧ hitStopB p stop b = false) :
    scanBars p entry target stop tOff sOff l =
      { outcome := Outcome.SKIP, pnl := 0, reason := some "end of day",
        entry := some entry, target := some target, stop := some stop } := by
  induction l with
  | nil => rfl
  | cons b rest ih =>
      have hb := h b (by simp)
      unfold scanBars
      simp only [hb.1, hb.2, Bool.false_and, Bool.false_eq_true, if_false]
      exact ih (fun x hx => h x (by simp [hx]))

theorem scanBars_first_fire (p : TradeParams) (entry target stop tOff sOff : ℚ)
    (l : List Bar) (i : ℕ) (b : Bar) (hb : l[i]? = some b)
    (hfire : hitTargetB p target b = true ∨ hitStopB p stop b = true)
    (hbefore : ∀ j b', j < i → l[j]? = some b' →
      hitTargetB p target b' = false ∧ hitStopB p stop b' = false) :
    scanBars p entry target stop tOff sOff l =
      (if hitTargetB p target b && hitStopB p stop b then
        { outcome := Outcome.SKIP, pnl := 0, reason := some "both hit",
          entry := some entry, target := some target, stop := some stop }
       else if hitTargetB p target b then
        { outcome := Outcome.WIN, pnl := tOff, reason := none,
          entry := some entry, target := some target, stop := some stop }
       else
        { outcome := Outcome.LOSS, pnl := -sOff, reason := none,
          entry := some entry, target := some target, stop := some stop }) := by
  induction l generalizing i with
  | nil => simp at hb
  | cons x rest ih =>
      cases i with
      | zero =>
          have hxb : x = b := by simpa using hb
          subst hxb
          unfold scanBars
          by_cases h2 : hitTargetB p target x = true
          · by_cases h3 : hitStopB p stop x = true
            · simp [h2, h3]
            · simp [h2, h3]
          · have h3 : hitStopB p stop x = true := by
              rcases hfire with hf | hf
              · exact absurd hf h2
              · exact hf
            simp [h2, h3]
      | succ j =>
          have hx := hbefore 0 x (Nat.succ_pos j) (by simp)
          unfold scanBars
          simp only [hx.1, hx.2, Bool.false_and, Bool.false_eq_true, if_false]
          exact ih j (by simpa using hb)
            (fun j' b' hj' hb' => hbefore (j' + 1) b' (by omega) (by simpa using hb'))

theorem simulateOne_eq_scan (view : ChartData) (p : TradeParams) (k : ℕ)
    (tb : Bar) (hk : p.triggerBar = (k : ℤ) + 1)
    (htb : view.bars[k]? = some tb) (hr : 0 < tb.h - tb.l) :
    simulateOne view p =
      some (scanBars p tb.c
        (targetPriceOf p tb.c (targetOffsetOf p (tb.h - tb.l)))
        (stopPriceOf p tb.c (stopOffsetOf p (tb.h - tb.l)))
        (targetOffsetOf p (tb.h - tb.l)) (stopOffsetOf p (tb.h - tb.l))
        (view.bars.drop (k + 1))) := by
  have hklt : k < view.bars.length := List.getElem?_eq_some.mp htb |>.1
  have hlen : ¬((view.bars.length : ℤ) ≤ p.triggerBar - 1) := by omega
  have hidx : p.triggerBar - 1 = (k : ℤ) := by omega
  have hg : jsGet? view.bars (p.triggerBar - 1) = some tb := by
    rw [hidx, jsGet?_natCast, htb]
  have hnr : ¬(tb.h - tb.l ≤ 0) := by linarith
  have hdrop : p.triggerBar.toNat = k + 1 := by omega
  simp [simulateOne, hlen, hg, hnr, hdrop]

/-- C1: for every view and valid params whose trigger bar (index
`triggerBar - 1 = k`) exists and has positive range, `simulateOne` scans
the bars strictly after the trigger in order and resolves at the first
bar where a level fires (`hitTargetB`/`hitStopB` are the source's
direction-appropriate high/low comparisons): both firing on that bar
gives SKIP "both hit" with pnl 0 and the entry/target/stop prices still
reported; only the target gives WIN with pnl `+targetOffset`; only the
stop gives LOSS with pnl `-stopOffset`; and if no bar fires by the end of
the sequence the result is SKIP "end of day" with pnl 0. -/
theorem simulateOne_scan_first_fire (view : ChartData) (p : TradeParams)
    (k : ℕ) (tb : Bar)
    (hv : isValid p = true)
    (hk : p.triggerBar = (k : ℤ) + 1)
    (htb : view.bars[k]? = some tb)
    (hr : 0 < tb.h - tb.l) :
    ((∀ b ∈ view.bars.drop (k + 1),
        hitTargetB p (targetPriceOf p tb.c (targetOffsetOf p (tb.h - tb.l))) b = false ∧
        hitStopB p (stopPriceOf p tb.c (stopOffsetOf p (tb.h - tb.l))) b = false) →
      simulateOne view p =
        some { outcome := Outcome.SKIP, pnl := 0, reason := some "end of day",
               entry := some tb.c,
               target := some (targetPriceOf p tb.c (targetOffsetOf p (tb.h - tb.l))),
               stop := some (stopPriceOf p tb.c (stopOffsetOf p (tb.h - tb.l))) }) ∧
    (∀ (i : ℕ) (b : Bar), (view.bars.drop (k + 1))[i]? = some b →
      (hitTargetB p (targetPriceOf p tb.c (targetOffsetOf p (tb.h - tb.l))) b = true ∨
        hitStopB p (stopPriceOf p tb.c (stopOffsetOf p (tb.h - tb.l))) b = true) →
      (∀ (j : ℕ) (b' : Bar), j < i → (view.bars.drop (k + 1))[j]? = some b' →
        hitTargetB p (targetPriceOf p tb.c (targetOffsetOf p (tb.h - tb.l))) b' = false ∧
        hitStopB p (stopPriceOf p tb.c (stopOffsetOf p (tb.h - tb.l))) b' = false) →
      ((hitTargetB p (targetPriceOf p tb.c (targetOffsetOf p (tb.h - tb.l))) b = true →
          hitStopB p (stopPriceOf p tb.c (stopOffsetOf p (tb.h - tb.l))) b = true →
          simulateOne view p =
            some { outcome := Outcome.SKIP, pnl := 0, reason := some "both hit",
                   entry := some tb.c,
                   target := some (targetPriceOf p tb.c (targetOffsetOf p (tb.h - tb.l))),
                   stop := some (stopPriceOf p tb.c (stopOffsetOf p (tb.h - tb.l))) }) ∧
       (hitTargetB p (targetPriceOf p tb.c (targetOffsetOf p (tb.h - tb.l))) b = true →
          hitStopB p (stopPriceOf p tb.c (stopOffsetOf p (tb.h - tb.l))) b = false →
          simulateOne view p =
            some { outcome := Outcome.WIN, pnl := targetOffsetOf p (tb.h - tb.l),
                   reason := none, entry := some tb.c,
                   target := some (targetPriceOf p tb.c (targetOffsetOf p (tb.h - tb.l))),
                   stop := some (stopPriceOf p tb.c (stopOffsetOf p (tb.h - tb.l))) }) ∧
       (hitTargetB p (targetPriceOf p tb.c (targetOffsetOf p (tb.h - tb.l))) b = false →
          hitStopB p (stopPriceOf p tb.c (stopOffsetOf p (tb.h - tb.l))) b = true →
          simulateOne view p =
            some { outcome := Outcome.LOSS, pnl := -(stopOffsetOf p (tb.h - tb.l)),
                   reason := none, entry := some tb.c,
                   target := some (targetPriceOf p tb.c (targetOffsetOf p (tb.h - tb.l))),
                   stop := some (stopPriceOf p tb.c (stopOffsetOf p (tb.h - tb.l))) }))) := by
  have heq := simulateOne_eq_scan view p k tb hk htb hr
  constructor
  · intro hnone
    rw [heq, scanBars_no_fire p _ _ _ _ _ _ hnone]
  · intro i b hb hfire hbefore
    have hsc := scanBars_first_fire p tb.c
      (targetPriceOf p tb.c (targetOffsetOf p (tb.h - tb.l)))
      (stopPriceOf p tb.c (stopOffsetOf p (tb.h - tb.l)))
      (targetOffsetOf p (tb.h - tb.l)) (stopOffsetOf p (tb.h - tb.l))
      (view.bars.drop (k + 1)) i b hb hfire hbefore
    refine ⟨?_, ?_, ?_⟩
    · intro h2 h3
      rw [heq, hsc]
      simp [h2, h3]
    · intro h2 h3
      rw [heq, hsc]
      simp [h2, h3]
    · intro h2 h3
      rw [heq, hsc]
      simp [h2, h3]

/-- C1 (witness): a concrete Long setup — trigger bar with close 105 and
range 10, `targetPct = 50`, `stopPct = 30` — where the single following
bar reaches only the target, resolves as WIN with pnl 5. -/
theorem simulateOne_scan_first_fire_witness :
    simulateOne
        { key := "w1", bars := [⟨0, 100, 110, 100, 105⟩, ⟨1, 106, 110, 104, 108⟩] }
        { triggerBar := 1, direction := "Long", targetPct := 50, stopPct := 30 } =
      some { outcome := Outcome.WIN, pnl := 5, reason := none,
             entry := some 105, target := some 110, stop := some 102 } := by
  have h := ((simulateOne_scan_first_fire
      { key := "w1", bars := [⟨0, 100, 110, 100, 105⟩, ⟨1, 106, 110, 104, 108⟩] }
      { triggerBar := 1, direction := "Long", targetPct := 50, stopPct := 30 }
      0 ⟨0, 100, 110, 100, 105⟩ (by decide) (by decide) (by decide)
      (by norm_num)).2 0 ⟨1, 106, 110, 104, 108⟩ (by decide)
      (Or.inl (by norm_num [hitTargetB, targetPriceOf, targetOffsetOf]))
      (fun j b' hj _ => absurd hj (Nat.not_lt_zero j))).2.1
      (by norm_num [hitTargetB, targetPriceOf, targetOffsetOf])
      (by norm_num [hitStopB, stopPriceOf, stopOffsetOf])
  rw [h]
  norm_num [targetOffsetOf, stopOffsetOf, targetPriceOf, stopPriceOf]

/-! ### Aggregation over all views (C6, C10) -/

theorem filter_outcome_partition (ts : List Trade) :
    (ts.filter (fun t => t.result.outcome == Outcome.WIN)).length +
      (ts.filter (fun t => t.result.outcome == Outcome.LOSS)).length +
      (ts.filter (fun t => t.result.outcome == Outcome.SKIP)).length =
      ts.length := by
  induction ts with
  | nil => rfl
  | cons t rest ih =>
      rcases h : t.result.outcome <;>
        simp [List.filter_cons, h, Nat.succ_eq_add_one] <;> omega

theorem simulate_of_valid (views : List ChartData) (p : TradeParams)
    (hv : isValid p = true) :
    simulate views p =
      (let L := views.map (fun v =>
          { key := v.key, result := (simulateOne v p).getD defaultResult });
       let a := L.foldl tallyStep ⟨0, 0, 0, 0⟩;
       SimResult.ok
         { wins := a.wins, losses := a.losses, skipped := a.skipped,
           decisive := a.wins + a.losses,
           winRate := if 0 < a.wins + a.losses then
               (a.wins : ℚ) / ((a.wins + a.losses : ℕ) : ℚ) * 100 else 0,
           avgPnL := if 0 < a.wins + a.losses then
               a.totalPnL / ((a.wins + a.losses : ℕ) : ℚ) else 0,
           trades := L }) := by
  have h1 : 1 ≤ p.triggerBar := by
    have := (isValid_eq_true_iff p).mp hv
    omega
  have hall := simulateAll_eq_map views p
    (fun c _ => simulateOne_isSome_of_pos c p h1)
  simp [simulate, hv, hall]

/-- C6: with valid params, `simulate` produces a statistics object: its
`trades` list is `simulateOne` applied once per view (in order, each
result tagged with the view's key); `wins`/`losses`/`skipped` count the
outcomes; `decisive = wins + losses`; `winRate = wins/decisive × 100`
(0 when no decisive trade); `avgPnL` is the sum of pnl over decisive
trades divided by `decisive` (0 when no decisive trade).  In particular
three views yielding WIN(+5), WIN(+5) and LOSS(−3) give wins 2, losses 1,
skipped 0, decisive 3, winRate 200/3 ≈ 66.67 and avgPnL 7/3 ≈ 2.333. -/
theorem simulate_valid_stats (views : List ChartData) (p : TradeParams)
    (hv : isValid p = true) :
    ((∃ s, simulate views p = SimResult.ok s) ∧
     (∀ s, simulate views p = SimResult.ok s →
        s.trades = views.map (fun v =>
          { key := v.key, result := (simulateOne v p).getD defaultResult }) ∧
        s.wins = (s.trades.filter
          (fun t => t.result.outcome == Outcome.WIN)).length ∧
        s.losses = (s.trades.filter
          (fun t => t.result.outcome == Outcome.LOSS)).length ∧
        s.skipped = (s.trades.filter
          (fun t => t.result.outcome == Outcome.SKIP)).length ∧
        s.decisive = s.wins + s.losses ∧
        (s.decisive = 0 → s.winRate = 0 ∧ s.avgPnL = 0) ∧
        (0 < s.decisive →
          s.winRate = (s.wins : ℚ) / (s.decisive : ℚ) * 100 ∧
          s.avgPnL = ((s.trades.filter (fun t =>
              t.result.outcome == Outcome.WIN ||
                t.result.outcome == Outcome.LOSS)).map
            (fun t => t.result.pnl)).sum / (s.decisive : ℚ)))) ∧
    simulate
        [{ key := "A", bars := [⟨0, 100, 110, 100, 105⟩, ⟨1, 106, 110, 104, 108⟩] },
         { key := "B", bars := [⟨0, 100, 110, 100, 105⟩, ⟨1, 106, 110, 104, 108⟩] },
         { key := "C", bars := [⟨0, 100, 110, 100, 105⟩, ⟨1, 104, 106, 101, 102⟩] }]
        { triggerBar := 1, direction := "Long", targetPct := 50, stopPct := 30 } =
      SimResult.ok
        { wins := 2, losses := 1, skipped := 0, decisive := 3,
          winRate := 200 / 3, avgPnL := 7 / 3,
          trades :=
            [⟨"A", ⟨Outcome.WIN, 5, none, some 105, some 110, some 102⟩⟩,
             ⟨"B", ⟨Outcome.WIN, 5, none, some 105, some 110, some 102⟩⟩,
             ⟨"C", ⟨Outcome.LOSS, -3, none, some 105, some 110, some 102⟩⟩] } := by
  constructor
  · have hsim := simulate_of_valid views p hv
    simp only [] at hsim
    refine ⟨⟨_, hsim⟩, ?_⟩
    intro s hs
    rw [hsim] at hs
    injection hs with hs
    subst hs
    have hspec := foldl_tallyStep_spec
      (views.map (fun v =>
        { key := v.key, result := (simulateOne v p).getD defaultResult }))
      ⟨0, 0, 0, 0⟩
    refine ⟨rfl, ?_, ?_, ?_, rfl, ?_, ?_⟩
    · rw [hspec]; simp
    · rw [hspec]; simp
    · rw [hspec]; simp
    · intro hd
      dsimp only at hd ⊢
      simp [hd]
    · intro hd
      dsimp only at hd ⊢
      refine ⟨by rw [if_pos hd], ?_⟩
      rw [if_pos hd, hspec]
      dsimp only
      simp
  · norm_num [simulate, isValid, simulateAll, simulateOne, jsGet?, scanBars,
      targetOffsetOf, stopOffsetOf, targetPriceOf, stopPriceOf, hitTargetB,
      hitStopB, tallyStep]
    simp +decide
    norm_num

/-- C6 (witness): the three-view scenario itself, obtained from the claim
theorem at concrete inputs. -/
theorem simulate_valid_stats_witness :
    simulate
        [{ key := "A", bars := [⟨0, 100, 110, 100, 105⟩, ⟨1, 106, 110, 104, 108⟩] },
         { key := "B", bars := [⟨0, 100, 110, 100, 105⟩, ⟨1, 106, 110, 104, 108⟩] },
         { key := "C", bars := [⟨0, 100, 110, 100, 105⟩, ⟨1, 104, 106, 101, 102⟩] }]
        { triggerBar := 1, direction := "Long", targetPct := 50, stopPct := 30 } =
      SimResult.ok
        { wins := 2, losses := 1, skipped := 0, decisive := 3,
          winRate := 200 / 3, avgPnL := 7 / 3,
          trades :=
            [⟨"A", ⟨Outcome.WIN, 5, none, some 105, some 110, some 102⟩⟩,
             ⟨"B", ⟨Outcome.WIN, 5, none, some 105, some 110, some 102⟩⟩,
             ⟨"C", ⟨Outcome.LOSS, -3, none, some 105, some 110, some 102⟩⟩] } :=
  (simulate_valid_stats []
    { triggerBar := 1, direction := "Long", targetPct := 50, stopPct := 30 }
    (by decide)).2

/-- C10: with valid params the result of `simulate` contains exactly one
trade per input view, in input order, each carrying that view's key; the
counters partition the input (`wins + losses + skipped` equals the number
of views); and every SKIP trade carries pnl 0 (so it contributes nothing
to the aggregate pnl). -/
theorem simulate_partition (views : List ChartData) (p : TradeParams)
    (hv : isValid p = true) :
    ∃ s, simulate views p = SimResult.ok s ∧
      s.trades.length = views.length ∧
      (∀ i : ℕ, (s.trades[i]?).map Trade.key = (views[i]?).map ChartData.key) ∧
      s.wins + s.losses + s.skipped = views.length ∧
      (∀ t ∈ s.trades, t.result.outcome = Outcome.SKIP → t.result.pnl = 0) := by
  have h1 : 1 ≤ p.triggerBar := by
    have := (isValid_eq_true_iff p).mp hv
    omega
  have hsim := simulate_of_valid views p hv
  simp only [] at hsim
  refine ⟨_, hsim, ?_, ?_, ?_, ?_⟩
  · dsimp only
    simp
  · intro i
    dsimp only
    rw [List.getElem?_map]
    cases views[i]? <;> rfl
  · dsimp only
    rw [foldl_tallyStep_spec]
    dsimp only
    rw [Nat.zero_add, Nat.zero_add, Nat.zero_add, filter_outcome_partition,
      List.length_map]
  · intro t ht hskip
    dsimp only at ht
    simp only [List.mem_map] at ht
    obtain ⟨v, hv', rfl⟩ := ht
    have hsome := simulateOne_isSome_of_pos v p h1
    rcases hr : simulateOne v p with _ | r
    · rw [hr] at hsome
      cases hsome
    · have hgd : (simulateOne v p).getD defaultResult = r := by
        rw [hr]
        rfl
      simp only [hgd] at hskip ⊢
      exact simulateOne_skip_pnl_zero v p r hr hskip

/-- C10 (witness): one empty view with valid Short params gives counters
summing to 1. -/
theorem simulate_partition_witness :
    ∃ s, simulate [{ key := "w10", bars := [] }]
        { triggerBar := 2, direction := "Short", targetPct := 1, stopPct := 2 } =
      SimResult.ok s ∧ s.wins + s.losses + s.skipped = 1 := by
  obtain ⟨s, hs, -, -, hsum, -⟩ := simulate_partition
    [{ key := "w10", bars := [] }]
    { triggerBar := 2, direction := "Short", targetPct := 1, stopPct := 2 }
    (by decide)
  exact ⟨s, hs, by simpa using hsum⟩

/-! ### Body-ratio classification (C8) -/

/-- C8: `bodyRatioClass` returns `<25%` whenever the range is not
positive; otherwise it buckets ratio = |close − open|/range×100 into
[0,25) → `<25%`, [25,50) → `25-50%`, [50,75) → `50-75%` and ratio ≥ 75
(so in particular [75,100]) → `>75%`; the boundary bars with ratio
exactly 25 and exactly 75 classify as `25-50%` and `>75%`, and a
zero-range bar as `<25%`. -/
theorem bodyRatioClass_buckets (b : Bar) :
    (b.h - b.l ≤ 0 → bodyRatioClass b = "<25%") ∧
    (0 < b.h - b.l →
      (|b.c - b.o| / (b.h - b.l) * 100 < 25 → bodyRatioClass b = "<25%") ∧
      (25 ≤ |b.c - b.o| / (b.h - b.l) * 100 →
        |b.c - b.o| / (b.h - b.l) * 100 < 50 → bodyRatioClass b = "25-50%") ∧
      (50 ≤ |b.c - b.o| / (b.h - b.l) * 100 →
        |b.c - b.o| / (b.h - b.l) * 100 < 75 → bodyRatioClass b = "50-75%") ∧
      (75 ≤ |b.c - b.o| / (b.h - b.l) * 100 → bodyRatioClass b = ">75%")) ∧
    calculateBodyRatios [⟨0, 100, 104, 100, 101⟩] = ["25-50%"] ∧
    calculateBodyRatios [⟨0, 100, 104, 100, 103⟩] = [">75%"] ∧
    calculateBodyRatios [⟨0, 100, 100, 100, 100⟩] = ["<25%"] := by
  refine ⟨?_, ?_, ?_, ?_, ?_⟩
  · intro hr
    simp [bodyRatioClass, hr]
  · intro hr
    have hr' : ¬(b.h - b.l ≤ 0) := by linarith
    refine ⟨?_, ?_, ?_, ?_⟩
    · intro h1
      simp [bodyRatioClass, hr', h1]
    · intro h1 h2
      have n1 : ¬(|b.c - b.o| / (b.h - b.l) * 100 < 25) := by linarith
      simp [bodyRatioClass, hr', n1, h2]
    · intro h1 h2
      have n1 : ¬(|b.c - b.o| / (b.h - b.l) * 100 < 25) := by linarith
      have n2 : ¬(|b.c - b.o| / (b.h - b.l) * 100 < 50) := by linarith
      simp [bodyRatioClass, hr', n1, n2, h2]
    · intro h1
      have n1 : ¬(|b.c - b.o| / (b.h - b.l) * 100 < 25) := by linarith
      have n2 : ¬(|b.c - b.o| / (b.h - b.l) * 100 < 50) := by linarith
      have n3 : ¬(|b.c - b.o| / (b.h - b.l) * 100 < 75) := by linarith
      simp [bodyRatioClass, hr', n1, n2, n3]
  · norm_num [calculateBodyRatios, bodyRatioClass]
  · norm_num [calculateBodyRatios, bodyRatioClass]
  · norm_num [calculateBodyRatios, bodyRatioClass]

/-- C8 (witness): a bar with range 8 and body 5 (ratio 62.5) classifies
as `50-75%`. -/
theorem bodyRatioClass_buckets_witness :
    bodyRatioClass ⟨0, 100, 108, 100, 105⟩ = "50-75%" :=
  ((bodyRatioClass_buckets ⟨0, 100, 108, 100, 105⟩).2.1
    (by norm_num)).2.2.1 (by norm_num) (by norm_num)

/-! ### Entry-level filter pass (C9) -/

theorem guard_clause_iff (l : List String) (x : String) :
    (!(decide (0 < l.length) && !l.contains x)) = true ↔ (l = [] ∨ x ∈ l) := by
  cases l <;> simp

theorem prevday_clause_iff (fs : List String) (e : TradingDayEntry) :
    (!(decide (0 < fs.length) && !matchesPrevDay fs e)) = true ↔
      (("open_above_prev_high" ∈ fs → e.openAbovePrevHigh = true) ∧
       ("close_below_prev_low" ∈ fs → e.closeBelowPrevLow = true)) := by
  have hm : matchesPrevDay fs e = true ↔
      (("open_above_prev_high" ∈ fs → e.openAbovePrevHigh = true) ∧
       ("close_below_prev_low" ∈ fs → e.closeBelowPrevLow = true)) := by
    simp only [matchesPrevDay, List.all_eq_true, Bool.and_eq_true,
      Bool.not_eq_true', Bool.and_eq_false_iff, beq_eq_false_iff_ne,
      Bool.not_eq_false']
    constructor
    · intro h
      constructor
      · intro hmem
        rcases (h _ hmem).1 with h' | h'
        · exact absurd rfl h'
        · exact h'
      · intro hmem
        rcases (h _ hmem).2 with h' | h'
        · exact absurd rfl h'
        · exact h'
    · rintro ⟨hoa, hcb⟩ f hf
      constructor
      · by_cases hfoa : f = "open_above_prev_high"
        · subst hfoa
          exact Or.inr (hoa hf)
        · exact Or.inl hfoa
      · by_cases hfcb : f = "close_below_prev_low"
        · subst hfcb
          exact Or.inr (hcb hf)
        · exact Or.inl hfcb
  cases fs with
  | nil => simp
  | cons f rest =>
      rw [← hm]
      simp

/-- C9: the entry-level pass of `getFilteredCharts` is a conjunction:
sources / gap directions / gap size classes each admit the entry iff the
selected set is empty or contains the entry's value, and each requested
prior-day flag requires the corresponding boolean to be exactly true,
several requested flags being ANDed. -/
theorem entryLevelPass_iff (spec : FilterSpec) (e : TradingDayEntry) :
    entryLevelPass spec e = true ↔
      ((spec.sources = [] ∨ e.source ∈ spec.sources) ∧
       (spec.gapDirections = [] ∨ e.gapDirection ∈ spec.gapDirections) ∧
       (spec.gapSizeClasses = [] ∨ e.gapSizeClass ∈ spec.gapSizeClasses) ∧
       ("open_above_prev_high" ∈ spec.prevDayFilters →
         e.openAbovePrevHigh = true) ∧
       ("close_below_prev_low" ∈ spec.prevDayFilters →
         e.closeBelowPrevLow = true)) := by
  rw [entryLevelPass]
  simp only [Bool.and_eq_true, guard_clause_iff, prevday_clause_iff, and_assoc]

/-- C9 (witness): an entry whose gap direction is listed and whose
`openAbovePrevHigh` flag is true passes a spec requesting both. -/
theorem entryLevelPass_iff_witness :
    entryLevelPass
        { sources := [], frequencies := ["5min"], barsOptions := [999],
          gapDirections := ["GAP UP"], gapSizeClasses := [],
          prevDayFilters := ["open_above_prev_high"], barFilters := [] }
        { source := "ES", date := "20240102", gapDirection := "GAP UP",
          gapSizeClass := "small", openAbovePrevHigh := true,
          closeBelowPrevLow := false, bars := [] } = true :=
  (entryLevelPass_iff _ _).mpr
    (by refine ⟨Or.inl rfl, Or.inr ?_, Or.inl rfl, fun _ => rfl, ?_⟩ <;> simp)

/-! ### Aggregation (C5) -/

theorem chunksOf_nil {α : Type} (k : ℕ) : chunksOf k ([] : List α) = [] := by
  rw [chunksOf]

theorem chunksOf_cons {α : Type} (k : ℕ) (x : α) (xs : List α) :
    chunksOf k (x :: xs) =
      (x :: xs.take (k - 1)) :: chunksOf k (xs.drop (k - 1)) := by
  rw [chunksOf]

theorem chunksOf_length_le {α : Type} (k : ℕ) (hk : 0 < k) :
    ∀ (n : ℕ) (l : List α), l.length ≤ n →
      (chunksOf k l).length = (l.length + k - 1) / k := by
  intro n
  induction n with
  | zero =>
      intro l hl
      have hnil : l = [] := List.eq_nil_of_length_eq_zero (Nat.le_zero.mp hl)
      subst hnil
      rw [chunksOf_nil]
      show 0 = (0 + k - 1) / k
      rw [Nat.div_eq_of_lt (by omega)]
  | succ n ih =>
      intro l hl
      cases l with
      | nil =>
          rw [chunksOf_nil]
          show 0 = (0 + k - 1) / k
          rw [Nat.div_eq_of_lt (by omega)]
      | cons x xs =>
          have hxs : xs.length ≤ n := by
            rw [List.length_cons] at hl
            omega
          rw [chunksOf_cons, List.length_cons,
            ih (xs.drop (k - 1)) (by rw [List.length_drop]; omega)]
          rw [List.length_drop, List.length_cons]
          rcases le_or_lt (k - 1) xs.length with hc | hc
          · have e1 : xs.length - (k - 1) + k - 1 = xs.length := by omega
            have e2 : xs.length + 1 + k - 1 = xs.length + k := by omega
            rw [e1, e2, Nat.add_div_right _ hk]
          · have e1 : xs.length - (k - 1) = 0 := by omega
            have e2 : xs.length + 1 + k - 1 = xs.length + k := by omega
            rw [e1, e2, Nat.add_div_right _ hk,
              Nat.div_eq_of_lt (by omega : 0 + k - 1 < k),
              Nat.div_eq_of_lt (by omega : xs.length < k)]

theorem chunksOf_length {α : Type} (k : ℕ) (hk : 0 < k) (l : List α) :
    (chunksOf k l).length = (l.length + k - 1) / k :=
  chunksOf_length_le k hk l.length l le_rfl

theorem chunksOf_getElem? {α : Type} (k : ℕ) (hk : 0 < k) (i : ℕ) :
    ∀ l : List α, i < (chunksOf k l).length →
      (chunksOf k l)[i]? = some ((l.drop (i * k)).take k) := by
  induction i with
  | zero =>
      intro l hi
      cases l with
      | nil => rw [chunksOf_nil] at hi; simp at hi
      | cons x xs =>
          rw [chunksOf_cons]
          cases k with
          | zero => omega
          | succ k' => simp [List.take_succ_cons]
  | succ i ih =>
      intro l hi
      cases l with
      | nil => rw [chunksOf_nil] at hi; simp at hi
      | cons x xs =>
          rw [chunksOf_cons] at hi ⊢
          rw [List.getElem?_cons_succ,
            ih (xs.drop (k - 1)) (by simpa using hi)]
          congr 2
          rw [List.drop_drop]
          have e1 : (i + 1) * k = (i * k + (k - 1)) + 1 := by
            rw [Nat.succ_mul]
            omega
          rw [e1, List.drop_succ_cons, Nat.add_comm (k - 1) (i * k)]

theorem chunksOf_ne_nil {α : Type} (k : ℕ) :
    ∀ (n : ℕ) (l : List α), l.length ≤ n → ∀ c ∈ chunksOf k l, c ≠ [] := by
  intro n
  induction n with
  | zero =>
      intro l hl
      have hnil : l = [] := List.eq_nil_of_length_eq_zero (Nat.le_zero.mp hl)
      subst hnil
      rw [chunksOf_nil]
      simp
  | succ n ih =>
      intro l hl c hc
      cases l with
      | nil => rw [chunksOf_nil] at hc; simp at hc
      | cons x xs =>
          have hxs : xs.length ≤ n := by
            rw [List.length_cons] at hl
            omega
          rw [chunksOf_cons] at hc
          rcases List.mem_cons.mp hc with h | h
          · subst h; simp
          · exact ih (xs.drop (k - 1)) (by rw [List.length_drop]; omega) c h

theorem filterMap_aggChunk_length (cs : List (List Bar))
    (h : ∀ c ∈ cs, c ≠ []) : (cs.filterMap aggChunk).length = cs.length := by
  induction cs with
  | nil => rfl
  | cons c rest ih =>
      cases c with
      | nil => exact absurd rfl (h [] (by simp))
      | cons b bs =>
          obtain ⟨v, hv⟩ : ∃ v, aggChunk (b :: bs) = some v := ⟨_, rfl⟩
          rw [List.filterMap_cons, hv, List.length_cons, List.length_cons,
            ih (fun c hc => h c (by simp [hc]))]

theorem filterMap_aggChunk_getElem? (cs : List (List Bar))
    (h : ∀ c ∈ cs, c ≠ []) (i : ℕ) :
    (cs.filterMap aggChunk)[i]? = (cs[i]?).bind aggChunk := by
  induction cs generalizing i with
  | nil => simp
  | cons c rest ih =>
      cases c with
      | nil => exact absurd rfl (h [] (by simp))
      | cons b bs =>
          obtain ⟨v, hv⟩ : ∃ v, aggChunk (b :: bs) = some v := ⟨_, rfl⟩
          rw [List.filterMap_cons, hv]
          cases i with
          | zero => simp [hv]
          | succ i =>
              rw [List.getElem?_cons_succ, List.getElem?_cons_succ,
                ih (fun c hc => h c (by simp [hc])) i]

theorem foldl_max_spec (a : ℚ) (l : List ℚ) :
    a ≤ l.foldl max a ∧ (∀ x ∈ l, x ≤ l.foldl max a) ∧
      (l.foldl max a = a ∨ l.foldl max a ∈ l) := by
  induction l generalizing a with
  | nil => simp
  | cons x xs ih =>
      simp only [List.foldl_cons]
      obtain ⟨h1, h2, h3⟩ := ih (max a x)
      refine ⟨le_trans (le_max_left a x) h1, ?_, ?_⟩
      · intro y hy
        rcases List.mem_cons.mp hy with hy | hy
        · subst hy
          exact le_trans (le_max_right a y) h1
        · exact h2 y hy
      · rcases h3 with h | h
        · rcases max_choice a x with hc | hc
          · exact Or.inl (h.trans hc)
          · refine Or.inr ?_
            rw [h.trans hc]
            simp
        · exact Or.inr (List.mem_cons_of_mem x h)

theorem foldl_min_spec (a : ℚ) (l : List ℚ) :
    l.foldl min a ≤ a ∧ (∀ x ∈ l, l.foldl min a ≤ x) ∧
      (l.foldl min a = a ∨ l.foldl min a ∈ l) := by
  induction l generalizing a with
  | nil => simp
  | cons x xs ih =>
      simp only [List.foldl_cons]
      obtain ⟨h1, h2, h3⟩ := ih (min a x)
      refine ⟨le_trans h1 (min_le_left a x), ?_, ?_⟩
      · intro y hy
        rcases List.mem_cons.mp hy with hy | hy
        · subst hy
          exact le_trans h1 (min_le_right a y)
        · exact h2 y hy
      · rcases h3 with h | h
        · rcases min_choice a x with hc | hc
          · exact Or.inl (h.trans hc)
          · refine Or.inr ?_
            rw [h.trans hc]
            simp
        · exact Or.inr (List.mem_cons_of_mem x h)

theorem getLast?_cons_getLastD {α : Type} (b : α) (rest : List α) :
    (b :: rest).getLast? = some (rest.getLastD b) := by
  induction rest generalizing b with
  | nil => rfl
  | cons y ys ih =>
      rw [List.getLast?_cons_cons, ih y, List.getLastD_cons]

theorem drop_take_one {α : Type} (l : List α) (i : ℕ) (a : α)
    (h : l[i]? = some a) : (l.drop i).take 1 = [a] := by
  have hh : (l.drop i).head? = some a := by
    rw [List.head?_drop]
    exact h
  cases hd : l.drop i with
  | nil => rw [hd] at hh; cases hh
  | cons x xs =>
      rw [hd] at hh
      simp only [List.head?_cons, Option.some.injEq] at hh
      subst hh
      rfl

theorem aggChunks_spec (k : ℕ) (hk : 0 < k) (bars : List Bar) :
    ((chunksOf k bars).filterMap aggChunk).length = (bars.length + k - 1) / k ∧
    (∀ i : ℕ, i < ((chunksOf k bars).filterMap aggChunk).length →
      ∃ first last agg,
        ((bars.drop (i * k)).take k).head? = some first ∧
        ((bars.drop (i * k)).take k).getLast? = some last ∧
        ((chunksOf k bars).filterMap aggChunk)[i]? = some agg ∧
        agg.ts = first.ts ∧ agg.o = first.o ∧ agg.c = last.c ∧
        (∀ x ∈ (bars.drop (i * k)).take k, x.h ≤ agg.h) ∧
        (∃ x ∈ (bars.drop (i * k)).take k, agg.h = x.h) ∧
        (∀ x ∈ (bars.drop (i * k)).take k, agg.l ≤ x.l) ∧
        (∃ x ∈ (bars.drop (i * k)).take k, agg.l = x.l)) := by
  have hne := chunksOf_ne_nil k bars.length bars le_rfl
  have hlen := filterMap_aggChunk_length (chunksOf k bars) hne
  refine ⟨by rw [hlen, chunksOf_length k hk], ?_⟩
  intro i hi
  have hic : i < (chunksOf k bars).length := by
    rw [hlen] at hi
    exact hi
  have hchunk := chunksOf_getElem? k hk i bars hic
  have hgl := filterMap_aggChunk_getElem? (chunksOf k bars) hne i
  rw [hchunk] at hgl
  have hcne := hne _ (List.getElem?_mem hchunk)
  cases hc : (bars.drop (i * k)).take k with
  | nil => exact absurd hc hcne
  | cons b rest =>
      rw [hc] at hgl
      have hmax := foldl_max_spec b.h (rest.map Bar.h)
      have hmin := foldl_min_spec b.l (rest.map Bar.l)
      rw [List.foldl_map] at hmax hmin
      refine ⟨b, rest.getLastD b,
        { ts := b.ts, o := b.o,
          h := rest.foldl (fun m x => max m x.h) b.h,
          l := rest.foldl (fun m x => min m x.l) b.l,
          c := (rest.getLastD b).c },
        rfl,
        getLast?_cons_getLastD b rest,
        by rw [hgl]; rfl,
        rfl, rfl, rfl, ?_, ?_, ?_, ?_⟩
      · intro x hx
        rcases List.mem_cons.mp hx with hbx | hbx
        · subst hbx
          exact hmax.1
        · exact hmax.2.1 x.h (List.mem_map_of_mem Bar.h hbx)
      · rcases hmax.2.2 with h | h
        · exact ⟨b, by simp, h⟩
        · obtain ⟨r, hr, hrh⟩ := List.mem_map.mp h
          exact ⟨r, by simp [hr], hrh.symm⟩
      · intro x hx
        rcases List.mem_cons.mp hx with hbx | hbx
        · subst hbx
          exact hmin.1
        · exact hmin.2.1 x.l (List.mem_map_of_mem Bar.l hbx)
      · rcases hmin.2.2 with h | h
        · exact ⟨b, by simp, h⟩
        · obtain ⟨r, hr, hrl⟩ := List.mem_map.mp h
          exact ⟨r, by simp [hr], hrl.symm⟩

/-- C5: `aggregateToFrequency` partitions the input into consecutive
chunks of `k` bars (k = 1 for '5min', 2 for '10min', 3 for '15min'), the
final possibly-shorter chunk retained: the output has `ceil(N/k)` bars;
for '5min' it is the input itself; and the i-th output bar takes the
timestamp and open of its chunk's first bar, the maximum high and
minimum low over the chunk, and the close of its chunk's last bar. -/
theorem aggregateToFrequency_spec (bars : List Bar) (freq : String) (k : ℕ)
    (hf : (freq = "5min" ∧ k = 1) ∨ (freq = "10min" ∧ k = 2) ∨
      (freq = "15min" ∧ k = 3)) :
    (aggregateToFrequency bars freq).length = (bars.length + k - 1) / k ∧
    (freq = "5min" → aggregateToFrequency bars freq = bars) ∧
    (∀ i : ℕ, i < (aggregateToFrequency bars freq).length →
      ∃ first last agg,
        ((bars.drop (i * k)).take k).head? = some first ∧
        ((bars.drop (i * k)).take k).getLast? = some last ∧
        (aggregateToFrequency bars freq)[i]? = some agg ∧
        agg.ts = first.ts ∧ agg.o = first.o ∧ agg.c = last.c ∧
        (∀ x ∈ (bars.drop (i * k)).take k, x.h ≤ agg.h) ∧
        (∃ x ∈ (bars.drop (i * k)).take k, agg.h = x.h) ∧
        (∀ x ∈ (bars.drop (i * k)).take k, agg.l ≤ x.l) ∧
        (∃ x ∈ (bars.drop (i * k)).take k, agg.l = x.l)) := by
  rcases hf with ⟨hfreq, hkk⟩ | ⟨hfreq, hkk⟩ | ⟨hfreq, hkk⟩ <;> subst hfreq <;> subst hkk
  · have hagg : aggregateToFrequency bars "5min" = bars := by
      simp [aggregateToFrequency]
    refine ⟨by rw [hagg]; omega, fun _ => hagg, ?_⟩
    intro i hi
    rw [hagg] at hi
    have ha : bars[i]? = some (bars.get ⟨i, hi⟩) := List.getElem?_eq_getElem hi
    have hchunk : (bars.drop (i * 1)).take 1 = [bars.get ⟨i, hi⟩] := by
      rw [Nat.mul_one]
      exact drop_take_one bars i _ ha
    refine ⟨bars.get ⟨i, hi⟩, bars.get ⟨i, hi⟩, bars.get ⟨i, hi⟩,
      by rw [hchunk]; rfl, by rw [hchunk]; rfl, by rw [hagg]; exact ha,
      rfl, rfl, rfl, ?_, ?_, ?_, ?_⟩
    · intro x hx
      rw [hchunk] at hx
      simp only [List.mem_singleton] at hx
      subst hx
      exact le_refl _
    · exact ⟨bars.get ⟨i, hi⟩, by rw [hchunk]; simp, rfl⟩
    · intro x hx
      rw [hchunk] at hx
      simp only [List.mem_singleton] at hx
      subst hx
      exact le_refl _
    · exact ⟨bars.get ⟨i, hi⟩, by rw [hchunk]; simp, rfl⟩
  · have hagg : aggregateToFrequency bars "10min" =
        (chunksOf 2 bars).filterMap aggChunk := by
      unfold aggregateToFrequency
      rw [if_neg (by decide)]
      norm_num
    obtain ⟨hlen, hidx⟩ := aggChunks_spec 2 (by norm_num) bars
    rw [hagg]
    exact ⟨hlen, fun h => absurd h (by decide), hidx⟩
  · have hagg : aggregateToFrequency bars "15min" =
        (chunksOf 3 bars).filterMap aggChunk := by
      unfold aggregateToFrequency
      rw [if_neg (by decide)]
      rw [if_neg (by decide)]
    obtain ⟨hlen, hidx⟩ := aggChunks_spec 3 (by norm_num) bars
    rw [hagg]
    exact ⟨hlen, fun h => absurd h (by decide), hidx⟩

/-- C5 (witness): three 5-minute bars aggregate to ceil(3/2) = 2 ten-minute
bars. -/
theorem aggregateToFrequency_spec_witness :
    (aggregateToFrequency [⟨0, 1, 5, 0, 2⟩, ⟨1, 2, 7, 1, 3⟩, ⟨2, 3, 4, 2, 4⟩]
      "10min").length = 2 := by
  rw [(aggregateToFrequency_spec
    [⟨0, 1, 5, 0, 2⟩, ⟨1, 2, 7, 1, 3⟩, ⟨2, 3, 4, 2, 4⟩] "10min" 2
    (Or.inr (Or.inl ⟨rfl, rfl⟩))).1]
  decide

/-! ### Per-bar filtering (C4) -/

theorem barFilterOk_eq_true_iff (cd : ChartView) (bf : BarFilter) :
    barFilterOk cd bf = true ↔
      (jsGet? cd.barDirections (bf.bar - 1) = some bf.direction ∧
       (∀ br, bf.bodyRatio = some br → br ≠ "any" →
         jsGet? cd.bodyRatios (bf.bar - 1) = some br)) := by
  constructor
  · intro hok
    simp only [barFilterOk] at hok
    by_cases h1 : (cd.barDirections.length : ℤ) ≤ bf.bar - 1
    · rw [if_pos h1] at hok
      cases hok
    · rw [if_neg h1] at hok
      by_cases h2 : jsGet? cd.barDirections (bf.bar - 1) = some bf.direction
      · refine ⟨h2, ?_⟩
        intro br hbr hbrany
        rw [if_neg (fun hne => hne h2)] at hok
        rw [hbr] at hok
        dsimp only at hok
        rw [if_neg hbrany] at hok
        by_cases h3 : (cd.bodyRatios.length : ℤ) ≤ bf.bar - 1
        · rw [if_pos h3] at hok
          cases hok
        · rw [if_neg h3] at hok
          exact of_decide_eq_true hok
      · rw [if_pos h2] at hok
        cases hok
  · rintro ⟨hdir, hbody⟩
    have hb := jsGet?_eq_some_bounds hdir
    have h1 : ¬((cd.barDirections.length : ℤ) ≤ bf.bar - 1) := by omega
    simp only [barFilterOk]
    rw [if_neg h1]
    rw [if_neg (fun hne => hne hdir)]
    rcases hbr : bf.bodyRatio with _ | br
    · rfl
    · dsimp only
      by_cases hany : br = "any"
      · rw [if_pos hany]
      · rw [if_neg hany]
        have hrb := hbody br hbr hany
        have hb3 := jsGet?_eq_some_bounds hrb
        have h3 : ¬((cd.bodyRatios.length : ℤ) ≤ bf.bar - 1) := by omega
        rw [if_neg h3]
        exact decide_eq_true hrb

/-- C4: an `(entry, frequency, barsOption)` combination whose view
`getTradingDayData` computes is kept by `getFilteredCharts`'s inner loop
iff the view has at least 5 bars and every requested `(barNumber,
direction, bodyRatio?)` constraint holds: `barNumber - 1` indexes the
derived direction sequence and matches the requested direction, and a
requested non-wildcard body-ratio class matches at that index.  A kept
view is an element of `getFilteredCharts`'s output; every failure
(including an out-of-range or negative index, which `jsGet?` sends to
`none`) just drops the view — `keepView` is a total function, nothing is
raised — and a short view is dropped the same way, not surfaced as an
error. -/
theorem keepView_surfaced_iff (catalog : List TradingDayEntry)
    (spec : FilterSpec) (e : TradingDayEntry) (freq : String) (barsOpt : ℕ)
    (cd : ChartView)
    (hcd : getTradingDayData catalog e.source e.date freq barsOpt = some cd) :
    ((keepView catalog spec e freq barsOpt).isSome = true ↔
      (5 ≤ cd.bars.length ∧ ∀ bf ∈ spec.barFilters,
        jsGet? cd.barDirections (bf.bar - 1) = some bf.direction ∧
        (∀ br, bf.bodyRatio = some br → br ≠ "any" →
          jsGet? cd.bodyRatios (bf.bar - 1) = some br))) ∧
    (∀ v, keepView catalog spec e freq barsOpt = some v →
      e ∈ catalog → entryLevelPass spec e = true →
      freq ∈ spec.frequencies → barsOpt ∈ spec.barsOptions →
      v ∈ getFilteredCharts catalog spec) := by
  have hkv : keepView catalog spec e freq barsOpt =
      (if cd.bars.length < 5 then none
       else if 0 < spec.barFilters.length ∧
           matchesBarFilters spec.barFilters cd = false then none
       else some { cd with key := viewKey e.source e.date freq barsOpt }) := by
    rw [keepView, hcd]
  constructor
  · rw [hkv]
    by_cases h5 : cd.bars.length < 5
    · rw [if_pos h5]
      constructor
      · intro h
        cases h
      · rintro ⟨h, -⟩
        omega
    · rw [if_neg h5]
      by_cases hm : matchesBarFilters spec.barFilters cd = true
      · rw [if_neg (by rintro ⟨-, hf'⟩; rw [hm] at hf'; cases hf')]
        constructor
        · intro _
          refine ⟨by omega, ?_⟩
          intro bf hbf
          exact (barFilterOk_eq_true_iff cd bf).mp
            (List.all_eq_true.mp hm bf hbf)
        · intro _
          rfl
      · have hmf : matchesBarFilters spec.barFilters cd = false := by
          cases h : matchesBarFilters spec.barFilters cd
          · rfl
          · exact absurd h hm
        have hlen : 0 < spec.barFilters.length := by
          cases hbfs : spec.barFilters with
          | nil =>
              rw [hbfs] at hmf
              cases hmf
          | cons _ _ => simp [hbfs]
        rw [if_pos ⟨hlen, hmf⟩]
        constructor
        · intro h
          cases h
        · rintro ⟨-, hall⟩
          have : matchesBarFilters spec.barFilters cd = true :=
            List.all_eq_true.mpr
              (fun bf hbf => (barFilterOk_eq_true_iff cd bf).mpr (hall bf hbf))
          rw [this] at hmf
          cases hmf
  · intro v hkeep he hp hf hb
    unfold getFilteredCharts
    rw [List.mem_flatMap]
    refine ⟨e, ?_, ?_⟩
    · rw [List.mem_filter]
      exact ⟨he, hp⟩
    · rw [List.mem_flatMap]
      exact ⟨freq, hf, List.mem_filterMap.mpr ⟨barsOpt, hb, hkeep⟩⟩

/-- C4 (witness): a five-bar all-UP view passes the spec requesting bar 1
to be UP, and the kept view is in the output of `getFilteredCharts`. -/
theorem keepView_surfaced_iff_witness :
    (keepView [c4Entry] c4Spec c4Entry "5min" 999).isSome = true := by
  have hcd : getTradingDayData [c4Entry] c4Entry.source c4Entry.date
      "5min" 999 = some c4View := by
    norm_num [getTradingDayData, findEntry, aggregateToFrequency,
      calculateBarDirections, barDirection, calculateBodyRatios,
      bodyRatioClass, c4Entry, c4View]
  refine ((keepView_surfaced_iff [c4Entry] c4Spec c4Entry "5min" 999 c4View
    hcd).1).mpr ⟨by decide, ?_⟩
  intro bf hbf
  have hbf1 : bf = { bar := 1, direction := "UP", bodyRatio := none } := by
    simpa [c4Spec] using hbf
  subst hbf1
  refine ⟨by decide, ?_⟩
  intro br hbr
  cases hbr
